import Mathlib

set_option autoImplicit false

/-!
Shallow embedding of the hydrator library (github.com/hodgesds/hydrator).

The library populates struct fields marked with a `hydrate` struct tag by
dispatching each annotated field either to a same-named method on the object
or to a `Finder` registered for the field's element type, draining the
per-field results and applying them to the object, recursing into resolved
pointers-to-struct and slices/arrays of structs.

Modelling decisions:
- reflection values and types are embedded as the inductives `GoVal` / `GoType`;
  reflect panics (calling `Type`/`Interface` on the zero `reflect.Value`, or
  `Value.Set` with a non-assignable value) are the `HOut.panicked` outcome;
- goroutine fan-out is serialized: results are drained in field-declaration
  order.  Statements about drain behaviour quantify over arbitrary result
  lists, which covers every completion order the Go scheduler could produce;
- the recursive `Hydrate` is given a fuel parameter; `HOut.diverge` marks
  fuel exhaustion and never occurs in any statement below;
- the buffered `flowChan` concurrency gate only bounds parallelism and has
  no effect on values or errors, so it is not represented.
-/

/-- Identity of a named Go type: its package path and its name, as reported
by reflect's `PkgPath()` and `Name()`. -/
structure TypeId where
  pkgPath : String
  name : String
deriving DecidableEq

/-- The reflect kinds that matter to the hydrator. -/
inductive GoKind where
  | kPtr
  | kSlice
  | kArray
  | kStruct
  | kInt
deriving DecidableEq

/-- Go types occurring in hydrated objects. -/
inductive GoType where
  | tInt
  | tStruct (id : TypeId)
  | tPtr (elem : GoType)
  | tSlice (elem : GoType)
  | tArray (size : Nat) (elem : GoType)
deriving DecidableEq

/-- reflect `Type.Kind()`. -/
def kindOf : GoType → GoKind
  | .tInt => .kInt
  | .tStruct _ => .kStruct
  | .tPtr _ => .kPtr
  | .tSlice _ => .kSlice
  | .tArray _ _ => .kArray

/-- reflect `Type.Name()`: named types report their name, unnamed composite
types (pointers, slices, arrays) report the empty string. -/
def goTypeName : GoType → String
  | .tStruct i => i.name
  | .tInt => "int"
  | _ => ""

/-- reflect `Type.PkgPath()`: empty for builtins and unnamed composite types. -/
def goPkgPath : GoType → String
  | .tStruct i => i.pkgPath
  | _ => ""

/-- The registry key used by both `Hydrator.Finder` (registration) and
`Hydrate` (lookup): `PkgPath()+Name()`, plain string concatenation with no
separator. -/
def typeKey (t : GoType) : String := goPkgPath t ++ goTypeName t

/-- reflect `Type.Elem()` for pointer, slice and array types (the only kinds
on which the source calls it). -/
def elemType : GoType → GoType
  | .tPtr e => e
  | .tSlice e => e
  | .tArray _ e => e
  | t => t

/-- A struct field declaration: name, declared type, struct tags, whether the
field is embedded (anonymous) and whether it is exported. -/
structure FieldDecl where
  name : String
  type : GoType
  tags : List (String × String)
  anonymous : Bool
  exported : Bool
deriving DecidableEq

/-- Go values as seen through reflect.  A struct value carries its field
declarations together with the current field values. -/
inductive GoVal where
  | vInt (n : Int)
  | vNilPtr (elem : GoType)
  | vPtr (pointee : GoVal)
  | vStruct (id : TypeId) (fields : List (FieldDecl × GoVal))
  | vSlice (elem : GoType) (elems : List GoVal)
  | vArray (elem : GoType) (elems : List GoVal)

/-- The dynamic type of a value. -/
def GoVal.typeOf : GoVal → GoType
  | .vInt _ => .tInt
  | .vNilPtr e => .tPtr e
  | .vPtr p => .tPtr p.typeOf
  | .vStruct i _ => .tStruct i
  | .vSlice e _ => .tSlice e
  | .vArray e xs => .tArray xs.length e

/-- reflect `Indirect`: dereference one pointer level, identity otherwise. -/
def indirect : GoVal → GoVal
  | .vPtr p => p
  | v => v

def isPtrVal : GoVal → Bool
  | .vPtr _ => true
  | _ => false

def isNilPtrVal : GoVal → Bool
  | .vNilPtr _ => true
  | _ => false

/-- Whether a value is a non-nil pointer to a struct (the condition of
main.go line 262 when it does not panic). -/
def isPtrToStructVal : GoVal → Bool
  | .vPtr (.vStruct _ _) => true
  | _ => false

def elemsOf : GoVal → List GoVal
  | .vSlice _ xs => xs
  | .vArray _ xs => xs
  | _ => []

def withElems : GoVal → List GoVal → GoVal
  | .vSlice e _, xs => .vSlice e xs
  | .vArray e _, xs => .vArray e xs
  | v, _ => v

/-- Element-type test of main.go lines 271-273: pointer-to-struct or struct. -/
def elemStructy : GoType → Bool
  | .tStruct _ => true
  | .tPtr (.tStruct _) => true
  | _ => false

/-- Condition of main.go lines 270-273: the resolved value is a slice or
array whose elements are structs, directly or through a pointer. -/
def seqRecurses : GoType → Bool
  | .tSlice e => elemStructy e
  | .tArray _ e => elemStructy e
  | _ => false

/-- The error values `Hydrate` can produce, one constructor per `fmt.Errorf`
site (message payloads reduced to the varying part) plus `userErr` for
errors returned by finders and methods. -/
inductive GoErr where
  | invalidObject
  | anonymousField (fieldName : String)
  | unsupportedKind (fieldName : String)
  | privateField
  | kindMismatch (fieldTypeName : String)
  | userErr (msg : String)
deriving DecidableEq

def isPrivateFieldErr : GoErr → Bool
  | .privateField => true
  | _ => false

def isKindMismatchErr : GoErr → Bool
  | .kindMismatch _ => true
  | _ => false

/-- `StructTag.Get`: the value stored under a key, or `""` when absent. -/
def getTag (tags : List (String × String)) (key : String) : String :=
  match tags.find? (fun p => p.1 == key) with
  | some p => p.2
  | none => ""

/-- `Value.FieldByName` on a struct value (with the declaration attached). -/
def findFieldDecl (flds : List (FieldDecl × GoVal)) (nm : String) :
    Option (FieldDecl × GoVal) :=
  flds.find? (fun fv => fv.1.name == nm)

/-- Current value of the field named `nm`. -/
def fieldVal (flds : List (FieldDecl × GoVal)) (nm : String) : Option GoVal :=
  (findFieldDecl flds nm).map (fun fv => fv.2)

/-- `Value.Set` on the field named `nm` (type compatibility checked by the
caller). -/
def setFieldVal (flds : List (FieldDecl × GoVal)) (nm : String) (v : GoVal) :
    List (FieldDecl × GoVal) :=
  flds.map (fun fv => if fv.1.name == nm then (fv.1, v) else fv)

/-- Name of the first field whose tag under `tag` is neither empty nor the
sentinel, i.e. the first field the enumeration loop does not skip. -/
def firstAnnotatedName (tag : String) : List (FieldDecl × GoVal) → Option String
  | [] => none
  | fv :: l =>
    let t := getTag fv.1.tags tag
    if t = "" ∨ t = "-" then firstAnnotatedName tag l else some fv.1.name

/-- The `hydrationResult` struct: field name, resolved value (`none` is the
untyped nil interface) and error. -/
structure HydrationResult where
  field : String
  val : Option GoVal
  err : Option GoErr

/-- The `Finder` function type; `none` as the result value is the untyped
nil interface. -/
abbrev FinderImpl := GoVal → Option GoVal × Option GoErr

/-- The `Hydrator`: configured tag keyword and the finder registry.  The
`flowChan` concurrency gate carries no value-level information and is not
represented. -/
structure Hydrator where
  tag : String
  finders : List (String × FinderImpl)

/-- `NewHydrator()` with its defaults. -/
def NewHydrator : Hydrator := { tag := "hydrate", finders := [] }

/-- The `Tag` option. -/
def withTag (t : String) (h : Hydrator) : Hydrator := { h with tag := t }

/-- `Hydrator.Finder`: store a finder under `PkgPath()+Name()` of the
indirected sample's type; the most recent registration shadows older ones. -/
def Hydrator.Finder (h : Hydrator) (sample : GoVal) (f : FinderImpl) : Hydrator :=
  { h with finders := (typeKey (GoVal.typeOf (indirect sample)), f) :: h.finders }

/-- Registry lookup: first (most recent) entry for the key. -/
def lookupFinder (l : List (String × FinderImpl)) (k : String) : Option FinderImpl :=
  (l.find? (fun p => p.1 == k)).map (fun p => p.2)

/-- A method of a named struct type, with its receiver kind.  `impl` models
the bound call `objVal.MethodByName(tag).Call([]reflect.Value{objVal})`:
it receives the whole object (which is both receiver and argument in the
source) and yields `(value, error)`. -/
structure MethodDecl where
  recv : TypeId
  ptrReceiver : Bool
  name : String
  impl : GoVal → Option GoVal × Option GoErr

abbrev MethodEnv := List MethodDecl

/-- reflect `Type.MethodByName` on the root argument's type: a pointer type
sees both pointer- and value-receiver methods, a plain struct type only
value-receiver methods. -/
def methodByName (env : MethodEnv) (t : GoType) (nm : String) : Option MethodDecl :=
  match t with
  | .tPtr (.tStruct i) =>
    List.find? (fun m => decide (m.recv = i) && (m.name == nm)) env
  | .tStruct i =>
    List.find? (fun m => decide (m.recv = i) && (m.name == nm) && !m.ptrReceiver) env
  | _ => none

/-- Outcomes: normal return, reflect panic, or fuel exhaustion. -/
inductive HOut (α : Type) where
  | ok (a : α)
  | panicked
  | diverge

/-- What the enumeration loop does with one field. -/
inductive DispatchAction where
  | skip
  | abort (e : GoErr)
  | task (r : HydrationResult)
  | crash

/-- Field kinds eligible for hydration (main.go line 178). -/
def isContainerKind : GoKind → Bool
  | .kPtr => true
  | .kSlice => true
  | .kArray => true
  | _ => false

/-- One iteration of the field-enumeration loop of `Hydrate`
(main.go lines 159-236): skip untagged fields, abort the whole loop on a
structural violation, otherwise dispatch a method task or a finder task
(or skip when no finder is registered). -/
def dispatchOne (env : MethodEnv) (h : Hydrator) (objVal : GoVal)
    (allFields : List (FieldDecl × GoVal)) (rootSettable : Bool)
    (fv : FieldDecl × GoVal) : DispatchAction :=
  let fld := fv.1
  let tagv := getTag fld.tags h.tag
  if tagv = "" ∨ tagv = "-" then
    .skip
  else if fld.anonymous || !rootSettable then
    .abort (.anonymousField fld.name)
  else if !(isContainerKind (kindOf fld.type)) then
    .abort (.unsupportedKind fld.name)
  else
    match methodByName env (GoVal.typeOf objVal) tagv with
    | some m =>
      let r := m.impl objVal
      .task { field := fld.name, val := r.1, err := r.2 }
    | none =>
      match lookupFinder h.finders (typeKey (elemType fld.type)) with
      | none => .skip
      | some f =>
        match fieldVal allFields tagv with
        | none => .crash
        | some sv =>
          let r := f sv
          .task { field := fld.name, val := r.1, err := r.2 }

/-- The whole enumeration loop: collect the dispatched results in field
order; an `abort` stops enumeration keeping earlier results and records the
structural error. -/
def dispatchFields (env : MethodEnv) (h : Hydrator) (objVal : GoVal)
    (allFields : List (FieldDecl × GoVal)) (rootSettable : Bool) :
    List (FieldDecl × GoVal) → HOut (List HydrationResult × Option GoErr)
  | [] => .ok ([], none)
  | fv :: rest =>
    match dispatchOne env h objVal allFields rootSettable fv with
    | .skip => dispatchFields env h objVal allFields rootSettable rest
    | .abort e => .ok ([], some e)
    | .crash => .panicked
    | .task r =>
      match dispatchFields env h objVal allFields rootSettable rest with
      | .ok (rs, e) => .ok (r :: rs, e)
      | .panicked => .panicked
      | .diverge => .diverge

/-- Last-wins combination used when draining a channel of errors:  a new
error overwrites, no error keeps the previous state. -/
def orElseErr (newErr oldErr : Option GoErr) : Option GoErr :=
  match newErr with
  | some e => some e
  | none => oldErr

/-- Recursive hydration of slice/array elements (main.go lines 275-303):
every element is hydrated; pointer elements are shared so their hydrated
value persists, struct elements are hydrated on a copy; element errors are
drained last-wins. -/
def hydrateElems (rec : GoVal → HOut (GoVal × Option GoErr)) :
    List GoVal → HOut (List GoVal × Option GoErr)
  | [] => .ok ([], none)
  | e :: es =>
    match rec e with
    | .ok (e2, eErr) =>
      match hydrateElems rec es with
      | .ok (es2, tailErr) =>
        .ok ((if isPtrVal e then e2 else e) :: es2, orElseErr tailErr eErr)
      | .panicked => .panicked
      | .diverge => .diverge
    | .panicked => .panicked
    | .diverge => .diverge

/-- Kind check and assignment (main.go lines 307-318): a kind mismatch
records an error and leaves the field unset; on matching kinds `field.Set`
panics unless the value's type is assignable to (here: equal to) the
field's type. -/
def applyResult (flds : List (FieldDecl × GoVal)) (fld : FieldDecl)
    (fname : String) (err : Option GoErr) (v : GoVal) :
    HOut (List (FieldDecl × GoVal) × Option GoErr) :=
  if kindOf (GoVal.typeOf v) ≠ kindOf fld.type then
    .ok (flds, some (.kindMismatch (goTypeName fld.type)))
  else if GoVal.typeOf v = fld.type then
    .ok (setFieldVal flds fname v, err)
  else
    .panicked

/-- One iteration of the result-drain loop (main.go lines 243-320): an error
result overwrites the recorded error and is discarded; an unsettable target
field records a private-field error; a pointer-to-struct value is
recursively hydrated before the kind check and skipped on recursive error;
slices/arrays of structs hydrate every element first; finally the kind
check and the assignment. -/
def drainStep (rec : GoVal → HOut (GoVal × Option GoErr)) (rootSettable : Bool)
    (flds : List (FieldDecl × GoVal)) (err : Option GoErr)
    (res : HydrationResult) : HOut (List (FieldDecl × GoVal) × Option GoErr) :=
  match res.err with
  | some e => .ok (flds, some e)
  | none =>
    match findFieldDecl flds res.field with
    | none => .ok (flds, some .privateField)
    | some (fld, _) =>
      if rootSettable && fld.exported then
        match res.val with
        | none => .panicked
        | some v =>
          match v with
          | .vNilPtr _ => .panicked
          | .vPtr (.vStruct sid sflds) =>
            match rec (.vPtr (.vStruct sid sflds)) with
            | .ok (_, some er) => .ok (flds, some er)
            | .ok (v2, none) => applyResult flds fld res.field err v2
            | .panicked => .panicked
            | .diverge => .diverge
          | _ =>
            if seqRecurses (GoVal.typeOf v) then
              match hydrateElems rec (elemsOf v) with
              | .ok (xs, sErr) =>
                applyResult flds fld res.field (orElseErr sErr err) (withElems v xs)
              | .panicked => .panicked
              | .diverge => .diverge
            else
              applyResult flds fld res.field err v
      else
        .ok (flds, some .privateField)

/-- The result-drain loop over a list of results. -/
def drainResults (rec : GoVal → HOut (GoVal × Option GoErr))
    (rootSettable : Bool) :
    List (FieldDecl × GoVal) → Option GoErr → List HydrationResult →
    HOut (List (FieldDecl × GoVal) × Option GoErr)
  | flds, err, [] => .ok (flds, err)
  | flds, err, res :: rest =>
    match drainStep rec rootSettable flds err res with
    | .ok (flds2, err2) => drainResults rec rootSettable flds2 err2 rest
    | .panicked => .panicked
    | .diverge => .diverge

/-- `Hydrator.Hydrate` with fuel for the recursion: validate the root,
enumerate and dispatch the fields, drain the results, return the updated
object together with the aggregate error. -/
def Hydrate (env : MethodEnv) : Nat → Hydrator → GoVal → HOut (GoVal × Option GoErr)
  | 0, _, _ => .diverge
  | n + 1, h, obj =>
    if isNilPtrVal obj then
      .panicked
    else
      match indirect obj with
      | .vStruct i flds =>
        match dispatchFields env h obj flds (isPtrVal obj) flds with
        | .ok (results, loopErr) =>
          match drainResults (Hydrate env n h) (isPtrVal obj) flds loopErr results with
          | .ok (flds2, errOut) =>
            .ok (if isPtrVal obj then .vPtr (.vStruct i flds2) else .vStruct i flds2, errOut)
          | .panicked => .panicked
          | .diverge => .diverge
        | .panicked => .panicked
        | .diverge => .diverge
      | _ => .ok (obj, some .invalidObject)

/-!
### Structural lemmas about the drain and enumeration loops
-/

/-- Draining a concatenation drains the prefix first and continues from its
state. -/
theorem drainResults_append (rec : GoVal → HOut (GoVal × Option GoErr)) (p : Bool) :
    ∀ (xs ys : List HydrationResult) (flds : List (FieldDecl × GoVal)) (e0 : Option GoErr),
    drainResults rec p flds e0 (xs ++ ys) =
      match drainResults rec p flds e0 xs with
      | .ok (f2, e2) => drainResults rec p f2 e2 ys
      | .panicked => .panicked
      | .diverge => .diverge := by
  intro xs
  induction xs with
  | nil => intro ys flds e0; simp [drainResults]
  | cons x xs ih =>
    intro ys flds e0
    simp only [List.cons_append, drainResults]
    cases drainStep rec p flds e0 x with
    | ok a =>
      cases a with
      | mk f2 e2 => simp [ih]
    | panicked => rfl
    | diverge => rfl

/-- Enumerating a concatenation: an abort in the prefix hides the rest, a
clean prefix prepends its results. -/
theorem dispatchFields_append (env : MethodEnv) (h : Hydrator) (o : GoVal)
    (allF : List (FieldDecl × GoVal)) (s : Bool) :
    ∀ (xs ys : List (FieldDecl × GoVal)),
    dispatchFields env h o allF s (xs ++ ys) =
      match dispatchFields env h o allF s xs with
      | .ok (rs, none) =>
        (match dispatchFields env h o allF s ys with
         | .ok (rs2, e2) => .ok (rs ++ rs2, e2)
         | .panicked => .panicked
         | .diverge => .diverge)
      | .ok (rs, some e) => .ok (rs, some e)
      | .panicked => .panicked
      | .diverge => .diverge := by
  intro xs
  induction xs with
  | nil =>
    intro ys
    simp only [List.nil_append, dispatchFields]
    cases dispatchFields env h o allF s ys with
    | ok a =>
      cases a with
      | mk rs2 e2 => simp
    | panicked => simp
    | diverge => simp
  | cons x xs ih =>
    intro ys
    simp only [List.cons_append, dispatchFields, List.append_eq]
    cases dispatchOne env h o allF s x with
    | skip => exact ih ys
    | abort e => rfl
    | crash => rfl
    | task r =>
      rw [ih ys]
      cases hxs : dispatchFields env h o allF s xs with
      | ok a =>
        cases a with
        | mk rs e =>
          cases e with
          | none =>
            cases dispatchFields env h o allF s ys with
            | ok b =>
              cases b with
              | mk rs2 e2 => simp
            | panicked => simp
            | diverge => simp
          | some e => simp
      | panicked => simp
      | diverge => simp

/-- Last-wins error accumulation never clears a recorded error. -/
theorem orElseErr_ne_none (s e0 : Option GoErr) (h : e0 ≠ none) :
    orElseErr s e0 ≠ none := by
  cases s with
  | none => simpa [orElseErr] using h
  | some e => simp [orElseErr]

/-- The kind check and assignment never clear a recorded error. -/
theorem applyResult_err_ne_none (flds : List (FieldDecl × GoVal)) (fld : FieldDecl)
    (nm : String) (e0 : Option GoErr) (v : GoVal)
    (f2 : List (FieldDecl × GoVal)) (e2 : Option GoErr)
    (h0 : e0 ≠ none)
    (h : applyResult flds fld nm e0 v = .ok (f2, e2)) : e2 ≠ none := by
  unfold applyResult at h
  split at h
  · simp only [HOut.ok.injEq, Prod.mk.injEq] at h
    rw [← h.2]
    simp
  · split at h
    · simp only [HOut.ok.injEq, Prod.mk.injEq] at h
      rw [← h.2]
      exact h0
    · exact HOut.noConfusion h

/-- One drain iteration never clears a recorded error. -/
theorem drainStep_err_ne_none (rec : GoVal → HOut (GoVal × Option GoErr))
    (p : Bool) (flds : List (FieldDecl × GoVal)) (e0 : Option GoErr)
    (res : HydrationResult) (f2 : List (FieldDecl × GoVal)) (e2 : Option GoErr)
    (h0 : e0 ≠ none)
    (h : drainStep rec p flds e0 res = .ok (f2, e2)) : e2 ≠ none := by
  unfold drainStep at h
  split at h
  · simp only [HOut.ok.injEq, Prod.mk.injEq] at h
    rw [← h.2]
    simp
  · split at h
    · simp only [HOut.ok.injEq, Prod.mk.injEq] at h
      rw [← h.2]
      simp
    · split at h
      · split at h
        · exact HOut.noConfusion h
        · split at h
          · exact HOut.noConfusion h
          · split at h
            · simp only [HOut.ok.injEq, Prod.mk.injEq] at h
              rw [← h.2]
              simp
            · exact applyResult_err_ne_none _ _ _ _ _ _ _ h0 h
            · exact HOut.noConfusion h
            · exact HOut.noConfusion h
          · split at h
            · split at h
              · exact applyResult_err_ne_none _ _ _ _ _ _ _
                  (orElseErr_ne_none _ _ h0) h
              · exact HOut.noConfusion h
              · exact HOut.noConfusion h
            · exact applyResult_err_ne_none _ _ _ _ _ _ _ h0 h
      · simp only [HOut.ok.injEq, Prod.mk.injEq] at h
        rw [← h.2]
        simp

/-- Draining any further results never clears a recorded error: once some
result has errored, the aggregate error `Hydrate` reports is non-none. -/
theorem drainResults_err_ne_none (rec : GoVal → HOut (GoVal × Option GoErr)) (p : Bool) :
    ∀ (rest : List HydrationResult) (flds : List (FieldDecl × GoVal))
      (e0 : Option GoErr) (f2 : List (FieldDecl × GoVal)) (e2 : Option GoErr),
    e0 ≠ none → drainResults rec p flds e0 rest = .ok (f2, e2) → e2 ≠ none := by
  intro rest
  induction rest with
  | nil =>
    intro flds e0 f2 e2 h0 h
    unfold drainResults at h
    simp only [HOut.ok.injEq, Prod.mk.injEq] at h
    rw [← h.2]
    exact h0
  | cons r rest ih =>
    intro flds e0 f2 e2 h0 h
    unfold drainResults at h
    cases hs : drainStep rec p flds e0 r with
    | ok a =>
      rw [hs] at h
      cases a with
      | mk fa ea =>
        exact ih fa ea f2 e2 (drainStep_err_ne_none rec p flds e0 r fa ea h0 hs) h
    | panicked => rw [hs] at h; exact HOut.noConfusion h
    | diverge => rw [hs] at h; exact HOut.noConfusion h

/-- For a settable target and a value that is neither a nil pointer, nor a
pointer to a struct, nor a struct sequence, the drain iteration goes
straight to the kind check and assignment. -/
theorem drainStep_no_recursion (rec : GoVal → HOut (GoVal × Option GoErr))
    (flds : List (FieldDecl × GoVal)) (e0 : Option GoErr) (res : HydrationResult)
    (fld : FieldDecl) (old v : GoVal)
    (hres : res.err = none)
    (hfind : findFieldDecl flds res.field = some (fld, old))
    (hexp : fld.exported = true)
    (hval : res.val = some v)
    (hnil : isNilPtrVal v = false)
    (hps : isPtrToStructVal v = false)
    (hseq : seqRecurses (GoVal.typeOf v) = false) :
    drainStep rec true flds e0 res = applyResult flds fld res.field e0 v := by
  cases v with
  | vInt n => simp [drainStep, hres, hfind, hexp, hval, seqRecurses, GoVal.typeOf]
  | vNilPtr e => simp [isNilPtrVal] at hnil
  | vPtr p =>
    cases p with
    | vStruct sid sflds => simp [isPtrToStructVal] at hps
    | vInt n => simp [drainStep, hres, hfind, hexp, hval, seqRecurses, GoVal.typeOf]
    | vNilPtr e => simp [drainStep, hres, hfind, hexp, hval, seqRecurses, GoVal.typeOf]
    | vPtr q => simp [drainStep, hres, hfind, hexp, hval, seqRecurses, GoVal.typeOf]
    | vSlice e xs => simp [drainStep, hres, hfind, hexp, hval, seqRecurses, GoVal.typeOf]
    | vArray e xs => simp [drainStep, hres, hfind, hexp, hval, seqRecurses, GoVal.typeOf]
  | vStruct i f => simp [drainStep, hres, hfind, hexp, hval, seqRecurses, GoVal.typeOf]
  | vSlice e xs => simp [drainStep, hres, hfind, hexp, hval, hseq]
  | vArray e xs => simp [drainStep, hres, hfind, hexp, hval, hseq]

/-!
### Concrete fixtures

Struct types, fields, methods and finders mirroring the repository's test
fixtures, used by the witnesses and counterexamples below.
-/

def hydPkg : String := "github.com/hodgesds/hydrator"
def idA : TypeId := ⟨hydPkg, "A"⟩
def idB : TypeId := ⟨hydPkg, "B"⟩
def idC : TypeId := ⟨hydPkg, "C"⟩
def idD : TypeId := ⟨hydPkg, "D"⟩

def fldID : FieldDecl := ⟨"ID", .tInt, [], false, true⟩
def fldB : FieldDecl := ⟨"B", .tPtr (.tStruct idB), [("hydrate", "BID")], false, true⟩
def fldBID : FieldDecl := ⟨"BID", .tInt, [], false, true⟩
def fldC : FieldDecl := ⟨"C", .tPtr (.tStruct idC), [("hydrate", "GetC")], false, true⟩
def fldD : FieldDecl := ⟨"D", .tPtr (.tStruct idD), [("hydrate", "GetD")], false, true⟩

/-- A `C` value whose own annotated field `D` is still nil. -/
def cWithD : GoVal := .vStruct idC [(fldID, .vInt 0), (fldD, .vNilPtr (.tStruct idD))]

/-- A plain `C` value with no annotated fields. -/
def cEmpty : GoVal := .vStruct idC [(fldID, .vInt 3)]

def dVal4 : GoVal := .vStruct idD [(fldID, .vInt 4)]

/-- `C.GetD` as in the repository tests: returns `&D{ID: 4}`. -/
def envGetD : MethodEnv := [⟨idC, true, "GetD", fun _ => (some (.vPtr dVal4), none)⟩]

/-!
### C1: last-error-wins aggregation
-/

def idTE : TypeId := ⟨hydPkg, "TwoErr"⟩
def fldX : FieldDecl := ⟨"X", .tPtr (.tStruct idB), [("hydrate", "GetX")], false, true⟩
def fldY : FieldDecl := ⟨"Y", .tPtr (.tStruct idB), [("hydrate", "GetY")], false, true⟩

/-- Two methods that both fail, in field order `X` then `Y`. -/
def envTwoErr : MethodEnv :=
  [ ⟨idTE, true, "GetX", fun _ => (none, some (.userErr "first error"))⟩,
    ⟨idTE, true, "GetY", fun _ => (none, some (.userErr "second error"))⟩ ]

def twoErrRoot : GoVal :=
  .vPtr (.vStruct idTE [(fldX, .vNilPtr (.tStruct idB)), (fldY, .vNilPtr (.tStruct idB))])

/-- C1: while draining results, each newly observed error overwrites the
previously recorded one, so when more than one dispatched resolution errors,
the single aggregate error is whichever error was observed last: appending
two erroring results to any successfully drained result list makes the drain
finish with exactly the second appended error, silently superseding both the
earlier state and the first appended error.  The drain is stated over an
arbitrary result list, covering every completion order of the goroutines.
The closed conjunct runs a whole `Hydrate` call whose two method fields both
error: the reported error is the one of the later-drained field. -/
theorem drain_last_error_wins (rec : GoVal → HOut (GoVal × Option GoErr)) (p : Bool)
    (flds flds2 : List (FieldDecl × GoVal)) (e0 e1 : Option GoErr)
    (rs : List HydrationResult) (r1 r2 : HydrationResult) (eA eB : GoErr)
    (hpre : drainResults rec p flds e0 rs = .ok (flds2, e1))
    (h1 : r1.err = some eA) (h2 : r2.err = some eB) :
    drainResults rec p flds e0 (rs ++ [r1, r2]) = .ok (flds2, some eB) ∧
      Hydrate envTwoErr 1 NewHydrator twoErrRoot =
        .ok (twoErrRoot, some (.userErr "second error")) := by
  constructor
  · rw [drainResults_append, hpre]
    simp [drainResults, drainStep, h1, h2]
  · rfl

/-- C1 witness: the last-error-wins theorem applied to concrete erroring
results. -/
theorem drain_last_error_wins_witness :
    drainResults (Hydrate [] 0 NewHydrator) true [] none
        [⟨"X", none, some (.userErr "a")⟩, ⟨"Y", none, some (.userErr "b")⟩] =
      .ok ([], some (.userErr "b")) ∧
      Hydrate envTwoErr 1 NewHydrator twoErrRoot =
        .ok (twoErrRoot, some (.userErr "second error")) :=
  drain_last_error_wins (Hydrate [] 0 NewHydrator) true [] [] none none []
    ⟨"X", none, some (.userErr "a")⟩ ⟨"Y", none, some (.userErr "b")⟩
    (.userErr "a") (.userErr "b") rfl rfl rfl

/-!
### C2: structural abort for anonymous vs. unexported annotated fields

The source's dispatch-time check (main.go line 169) is
`structField.Anonymous || !indObjVal.CanSet()`: it looks at the *object's*
settability, not the field's.  An unexported annotated field on a pointer
root therefore passes the check, its method/finder runs, and the
private-field error only surfaces while applying the result — without
stopping any other field.
-/

def idPX : TypeId := ⟨hydPkg, "PrivateTwo"⟩

/-- Unexported annotated field `c`. -/
def fldcU : FieldDecl := ⟨"c", .tPtr (.tStruct idC), [("hydrate", "GetC1")], false, false⟩

/-- Exported annotated field `D`, declared after `c`. -/
def fldDX : FieldDecl := ⟨"D", .tPtr (.tStruct idC), [("hydrate", "GetC2")], false, true⟩

def envPX : MethodEnv :=
  [ ⟨idPX, true, "GetC1", fun _ => (some (.vPtr cEmpty), none)⟩,
    ⟨idPX, true, "GetC2", fun _ => (some (.vPtr cEmpty), none)⟩ ]

def rootPX : GoVal :=
  .vPtr (.vStruct idPX [(fldcU, .vNilPtr (.tStruct idC)), (fldDX, .vNilPtr (.tStruct idC))])

/-- C2 counterexample: a pointer root whose first annotated field `c` is
unexported.  Contrary to the claim, enumeration does not stop: the method
for `c` is invoked, the error recorded is the private-field error raised
during result application (not at dispatch), and the later field `D` is
dispatched and actually set. -/
theorem unexported_field_dispatch_counterexample :
    Hydrate envPX 2 NewHydrator rootPX =
      .ok (.vPtr (.vStruct idPX [(fldcU, .vNilPtr (.tStruct idC)), (fldDX, .vPtr cEmpty)]),
        some .privateField) := rfl

/-- C2 (amended): only embedded/anonymous annotated fields (and, per C3, any
annotated field of a non-settable root) abort the enumeration loop before
dispatch: after any cleanly dispatched prefix, reaching an annotated
anonymous field ends enumeration with the anonymous-field error, the field's
resolver or method is never invoked and no later field is examined (the
`rest` of the fields does not influence the outcome).  Unexported fields on
a settable root instead fail with a private-field error during result
application, per the counterexample. -/
theorem anonymous_field_aborts_enumeration (env : MethodEnv) (h : Hydrator)
    (o : GoVal) (allF pre rest : List (FieldDecl × GoVal))
    (rs : List HydrationResult) (fld : FieldDecl) (v : GoVal)
    (hpre : dispatchFields env h o allF true pre = .ok (rs, none))
    (ht1 : getTag fld.tags h.tag ≠ "") (ht2 : getTag fld.tags h.tag ≠ "-")
    (han : fld.anonymous = true) :
    dispatchFields env h o allF true (pre ++ (fld, v) :: rest) =
      .ok (rs, some (.anonymousField fld.name)) := by
  rw [dispatchFields_append, hpre]
  have hone : dispatchOne env h o allF true (fld, v) = .abort (.anonymousField fld.name) := by
    simp [dispatchOne, ht1, ht2, han]
  simp [dispatchFields, hone]

/-- C2 witness: an embedded annotated field aborts enumeration immediately,
regardless of the fields that follow. -/
theorem anonymous_field_aborts_enumeration_witness :
    dispatchFields [] NewHydrator rootPX [] true
        [(⟨"B", .tPtr (.tStruct idB), [("hydrate", "BID")], true, true⟩, .vNilPtr (.tStruct idB)),
         (fldDX, .vNilPtr (.tStruct idC))] =
      .ok ([], some (.anonymousField "B")) :=
  anonymous_field_aborts_enumeration [] NewHydrator rootPX [] []
    [(fldDX, .vNilPtr (.tStruct idC))] []
    ⟨"B", .tPtr (.tStruct idB), [("hydrate", "BID")], true, true⟩
    (.vNilPtr (.tStruct idB)) rfl (by decide) (by decide) rfl

/-!
### C3: struct roots passed by value
-/

/-- On a non-settable root (`reflect.Indirect` of a by-value argument is not
settable), the enumeration loop aborts at the first annotated field with the
anonymous-field error, before dispatching anything; with no annotated field
it dispatches nothing and records no error. -/
theorem dispatchFields_not_settable (env : MethodEnv) (h : Hydrator) (o : GoVal)
    (allF : List (FieldDecl × GoVal)) :
    ∀ (l : List (FieldDecl × GoVal)),
    dispatchFields env h o allF false l =
      match firstAnnotatedName h.tag l with
      | some nm => .ok ([], some (.anonymousField nm))
      | none => .ok ([], none) := by
  intro l
  induction l with
  | nil => rfl
  | cons fv l ih =>
    by_cases htag : getTag fv.1.tags h.tag = "" ∨ getTag fv.1.tags h.tag = "-"
    · have hone : dispatchOne env h o allF false fv = .skip := by
        simp [dispatchOne, htag]
      simp [dispatchFields, hone, firstAnnotatedName, htag, ih]
    · have hone : dispatchOne env h o allF false fv = .abort (.anonymousField fv.1.name) := by
        push_neg at htag
        simp [dispatchOne, htag.1, htag.2]
      simp [dispatchFields, hone, firstAnnotatedName, htag]

/-- C3 (amended): a struct root passed by value with at least one annotated
field makes `Hydrate` abort enumeration at the *first* annotated field with
the anonymous-field error (the error site shared with embedded fields, not
the private-field error of the application phase), return that non-none
error, and mutate nothing: no per-field private-field errors are ever
produced because nothing is dispatched. -/
theorem byvalue_root_aborts_unchanged (env : MethodEnv) (h : Hydrator)
    (i : TypeId) (flds : List (FieldDecl × GoVal)) (n : Nat) (nm : String)
    (hAnn : firstAnnotatedName h.tag flds = some nm) :
    Hydrate env (n + 1) h (.vStruct i flds) =
      .ok (.vStruct i flds, some (.anonymousField nm)) ∧
      isPrivateFieldErr (.anonymousField nm) = false := by
  refine ⟨?_, rfl⟩
  have hd := dispatchFields_not_settable env h (.vStruct i flds) flds flds
  rw [hAnn] at hd
  simp [Hydrate, isNilPtrVal, indirect, isPtrVal, hd, drainResults]

/-- C3 counterexample: the struct `A{B *B hydrate:"BID"; BID int}` passed by
value, with a finder for `B` registered that would succeed on a pointer
root.  The claim predicts every annotated field fails as a private-field
error; in fact the call returns the anonymous-field error produced at the
first annotated field (and nothing is mutated), which is not a
private-field error. -/
theorem byvalue_root_private_error_counterexample :
    Hydrate []
        2
        (NewHydrator.Finder (.vStruct idB [(fldID, .vInt 0)])
          (fun sv => (some (.vPtr (.vStruct idB [(fldID, sv)])), none)))
        (.vStruct idA [(fldB, .vNilPtr (.tStruct idB)), (fldBID, .vInt 2)]) =
      .ok (.vStruct idA [(fldB, .vNilPtr (.tStruct idB)), (fldBID, .vInt 2)],
        some (.anonymousField "B")) ∧
      isPrivateFieldErr (.anonymousField "B") = false := ⟨rfl, rfl⟩

/-- C3 witness: the amended by-value theorem applied to the concrete `A`
struct value. -/
theorem byvalue_root_aborts_unchanged_witness :
    Hydrate [] 1 NewHydrator
        (.vStruct idA [(fldID, .vInt 1), (fldB, .vNilPtr (.tStruct idB)), (fldBID, .vInt 2)]) =
      .ok (.vStruct idA [(fldID, .vInt 1), (fldB, .vNilPtr (.tStruct idB)), (fldBID, .vInt 2)],
        some (.anonymousField "B")) ∧
      isPrivateFieldErr (.anonymousField "B") = false :=
  byvalue_root_aborts_unchanged [] NewHydrator idA
    [(fldID, .vInt 1), (fldB, .vNilPtr (.tStruct idB)), (fldBID, .vInt 2)] 0 "B" rfl

/-!
### C4: a same-named method always wins over a registered finder
-/

/-- C4: when the object's type exposes a method named by the directive, the
field is dispatched as a method task invoking that method with the whole
object; the hydrator `h` — and with it the finder registry — is universally
quantified and absent from the conclusion, so the registry is never
consulted for such a field no matter what is registered in it. -/
theorem method_wins_over_finder (env : MethodEnv) (h : Hydrator) (o : GoVal)
    (allF : List (FieldDecl × GoVal)) (fld : FieldDecl) (v : GoVal) (m : MethodDecl)
    (ht1 : getTag fld.tags h.tag ≠ "") (ht2 : getTag fld.tags h.tag ≠ "-")
    (han : fld.anonymous = false)
    (hkind : isContainerKind (kindOf fld.type) = true)
    (hm : methodByName env (GoVal.typeOf o) (getTag fld.tags h.tag) = some m) :
    dispatchOne env h o allF true (fld, v) =
      .task { field := fld.name, val := (m.impl o).1, err := (m.impl o).2 } := by
  simp [dispatchOne, ht1, ht2, han, hkind, hm]

def mGetC : MethodDecl := ⟨idA, true, "GetC", fun _ => (some (.vPtr cEmpty), none)⟩

/-- A hydrator with a finder registered for `C` under the very type the
field `C *C` points to; the finder returns a different value than the
method and is nevertheless ignored. -/
def hFinderForC : Hydrator :=
  NewHydrator.Finder (.vStruct idC [(fldID, .vInt 0)])
    (fun _ => (some (.vPtr (.vStruct idC [(fldID, .vInt 99)])), none))

def rootA4 : GoVal := .vPtr (.vStruct idA [(fldC, .vNilPtr (.tStruct idC))])

/-- C4 witness: with both the method `GetC` on `*A` and a finder registered
for `C`, the field is dispatched as the method's task. -/
theorem method_wins_over_finder_witness :
    dispatchOne [mGetC] hFinderForC rootA4 [(fldC, .vNilPtr (.tStruct idC))] true
        (fldC, .vNilPtr (.tStruct idC)) =
      .task { field := "C", val := some (.vPtr cEmpty), err := none } :=
  method_wins_over_finder [mGetC] hFinderForC rootA4 [(fldC, .vNilPtr (.tStruct idC))]
    fldC (.vNilPtr (.tStruct idC)) mGetC (by decide) (by decide) rfl rfl rfl

/-!
### C5: pointer-to-struct results are recursively hydrated before attach
-/

/-- C5: for a result carrying a pointer-to-struct value, the drain iteration
recursively invokes `Hydrate` (same environment, same hydrator, hence the
same registry and gate) on that value before anything is attached: when the
recursion errors, the error folds into the last-error-wins outcome and the
field is left untouched; when it succeeds, the value attached to the field
is exactly the recursion's output, so at the moment of assignment the
nested record's annotated fields are already resolved. -/
theorem ptr_result_hydrated_before_attach (env : MethodEnv) (h : Hydrator) (n : Nat)
    (flds : List (FieldDecl × GoVal)) (e0 : Option GoErr)
    (res : HydrationResult) (fld : FieldDecl) (old : GoVal)
    (sid : TypeId) (sflds : List (FieldDecl × GoVal))
    (v2 : GoVal) (eo : Option GoErr)
    (hres : res.err = none)
    (hval : res.val = some (.vPtr (.vStruct sid sflds)))
    (hfind : findFieldDecl flds res.field = some (fld, old))
    (hexp : fld.exported = true)
    (hrec : Hydrate env n h (.vPtr (.vStruct sid sflds)) = .ok (v2, eo)) :
    (∀ er, eo = some er →
      drainStep (Hydrate env n h) true flds e0 res = .ok (flds, some er)) ∧
    (eo = none → GoVal.typeOf v2 = fld.type →
      drainStep (Hydrate env n h) true flds e0 res =
        .ok (setFieldVal flds res.field v2, e0)) := by
  constructor
  · intro er he
    subst he
    simp [drainStep, hres, hfind, hexp, hval, hrec]
  · intro he hty
    subst he
    simp [drainStep, hres, hfind, hexp, hval, hrec, applyResult, hty]

/-- C5 witness: a result carrying `&C{ID, D: nil}` for the field `C *C`,
where `C.GetD` resolves `D`; the value attached is the hydrated one with
`D` already set. -/
theorem ptr_result_hydrated_before_attach_witness :
    drainStep (Hydrate envGetD 2 NewHydrator) true [(fldC, .vNilPtr (.tStruct idC))] none
        ⟨"C", some (.vPtr cWithD), none⟩ =
      .ok ([(fldC, .vPtr (.vStruct idC [(fldID, .vInt 0), (fldD, .vPtr dVal4)]))], none) :=
  (ptr_result_hydrated_before_attach envGetD NewHydrator 2
    [(fldC, .vNilPtr (.tStruct idC))] none ⟨"C", some (.vPtr cWithD), none⟩
    fldC (.vNilPtr (.tStruct idC)) idC [(fldID, .vInt 0), (fldD, .vNilPtr (.tStruct idD))]
    (.vPtr (.vStruct idC [(fldID, .vInt 0), (fldD, .vPtr dVal4)])) none
    rfl rfl rfl rfl rfl).2 rfl rfl

/-!
### C6: kind-mismatch handling

The kind check of main.go line 309 runs only after the recursion phases; a
pointer-to-struct result whose recursive hydration fails takes the
`continue` of line 266 and never reaches the kind check, so for such a
result no kind-mismatch error is ever recorded even though the kinds
differ — the recursive error is recorded instead.  In all cases the field
is left unset.
-/

def idRx : TypeId := ⟨hydPkg, "R"⟩
def fldE : FieldDecl := ⟨"E", .tPtr (.tStruct idC), [("hydrate", "GetE")], false, true⟩
def rxVal : GoVal := .vStruct idRx [(fldE, .vNilPtr (.tStruct idC))]
def idKM : TypeId := ⟨hydPkg, "KM"⟩
def fldDDKM : FieldDecl := ⟨"DD", .tSlice (.tPtr (.tStruct idB)), [("hydrate", "GetP")], false, true⟩

/-- `KM.GetP` returns `*R` (kind pointer) for the slice field `DD`;
`R.GetE` fails. -/
def envKM : MethodEnv :=
  [ ⟨idKM, true, "GetP", fun _ => (some (.vPtr rxVal), none)⟩,
    ⟨idRx, true, "GetE", fun _ => (some (.vPtr cEmpty), some (.userErr "boom"))⟩ ]

def rootKM : GoVal := .vPtr (.vStruct idKM [(fldDDKM, .vSlice (.tPtr (.tStruct idB)) [])])

/-- C6 counterexample: the method result `*R` has kind pointer while the
field `DD` is a slice — a kind mismatch — yet because `R`'s own hydration
fails, `Hydrate` reports the recursive error `boom` and no kind-mismatch
error is ever recorded (with a single result there is nothing to supersede
it: had it been recorded after the recursion it would have won).  The field
is left unset. -/
theorem kind_mismatch_not_recorded_counterexample :
    Hydrate envKM 2 NewHydrator rootKM = .ok (rootKM, some (.userErr "boom")) ∧
      isKindMismatchErr (.userErr "boom") = false := ⟨rfl, rfl⟩

/-- C6 (amended): consider an error-free resolution result for a settable
field, with the result's container kind differing from the field's declared
kind.  If the value is a typed nil pointer, the drain panics (the source
evaluates `resVal.Elem().Type()` on it at line 262) and no error of any
kind is recorded.  If it is a pointer to a struct whose recursive hydration
fails, the recursive error is recorded instead of a kind-mismatch.  In
every other case — plain values, pointers to structs whose recursive
hydration succeeds, and slices/arrays of structs after their elements are
hydrated — the kind-mismatch error is recorded.  In all non-panicking
cases the field is left unset at its original value. -/
theorem kind_mismatch_records_error (rec : GoVal → HOut (GoVal × Option GoErr))
    (flds : List (FieldDecl × GoVal)) (e0 : Option GoErr)
    (res : HydrationResult) (fld : FieldDecl) (old v : GoVal)
    (hres : res.err = none)
    (hfind : findFieldDecl flds res.field = some (fld, old))
    (hexp : fld.exported = true)
    (hval : res.val = some v) :
    ((isNilPtrVal v = false ∧ isPtrToStructVal v = false ∧
        seqRecurses (GoVal.typeOf v) = false ∧
        kindOf (GoVal.typeOf v) ≠ kindOf fld.type) →
      drainStep rec true flds e0 res =
        .ok (flds, some (.kindMismatch (goTypeName fld.type)))) ∧
    (∀ v2, isPtrToStructVal v = true → rec v = .ok (v2, none) →
      kindOf (GoVal.typeOf v2) ≠ kindOf fld.type →
      drainStep rec true flds e0 res =
        .ok (flds, some (.kindMismatch (goTypeName fld.type)))) ∧
    (∀ xs sErr, seqRecurses (GoVal.typeOf v) = true →
      hydrateElems rec (elemsOf v) = .ok (xs, sErr) →
      kindOf (GoVal.typeOf v) ≠ kindOf fld.type →
      drainStep rec true flds e0 res =
        .ok (flds, some (.kindMismatch (goTypeName fld.type)))) ∧
    (isNilPtrVal v = true → drainStep rec true flds e0 res = .panicked) ∧
    (∀ v2 er, isPtrToStructVal v = true → rec v = .ok (v2, some er) →
      drainStep rec true flds e0 res = .ok (flds, some er)) := by
  refine ⟨?_, ?_, ?_, ?_, ?_⟩
  · rintro ⟨hnil, hps, hseq, hk⟩
    rw [drainStep_no_recursion rec flds e0 res fld old v hres hfind hexp hval hnil hps hseq]
    simp [applyResult, hk]
  · intro v2 hps hrec hk
    cases v with
    | vPtr p =>
      cases p with
      | vStruct sid sflds => simp [drainStep, hres, hfind, hexp, hval, hrec, applyResult, hk]
      | vInt n => simp [isPtrToStructVal] at hps
      | vNilPtr e => simp [isPtrToStructVal] at hps
      | vPtr q => simp [isPtrToStructVal] at hps
      | vSlice e xs => simp [isPtrToStructVal] at hps
      | vArray e xs => simp [isPtrToStructVal] at hps
    | vInt n => simp [isPtrToStructVal] at hps
    | vNilPtr e => simp [isPtrToStructVal] at hps
    | vStruct i f => simp [isPtrToStructVal] at hps
    | vSlice e xs => simp [isPtrToStructVal] at hps
    | vArray e xs => simp [isPtrToStructVal] at hps
  · intro xs sErr hseq helems hk
    cases v with
    | vSlice e xs0 =>
      simp only [GoVal.typeOf] at hseq
      simp only [elemsOf] at helems
      simp only [GoVal.typeOf, kindOf] at hk
      simp [drainStep, hres, hfind, hexp, hval, hseq, elemsOf, helems, withElems,
        applyResult, GoVal.typeOf, kindOf, hk]
    | vArray e xs0 =>
      simp only [GoVal.typeOf] at hseq
      simp only [elemsOf] at helems
      simp only [GoVal.typeOf, kindOf] at hk
      simp [drainStep, hres, hfind, hexp, hval, hseq, elemsOf, helems, withElems,
        applyResult, GoVal.typeOf, kindOf, hk]
    | vInt n => simp [seqRecurses, GoVal.typeOf] at hseq
    | vNilPtr e => simp [seqRecurses, GoVal.typeOf] at hseq
    | vPtr p => simp [seqRecurses, GoVal.typeOf] at hseq
    | vStruct i f => simp [seqRecurses, GoVal.typeOf] at hseq
  · intro hnil
    cases v with
    | vNilPtr e => simp [drainStep, hres, hfind, hexp, hval]
    | vInt n => simp [isNilPtrVal] at hnil
    | vPtr p => simp [isNilPtrVal] at hnil
    | vStruct i f => simp [isNilPtrVal] at hnil
    | vSlice e xs => simp [isNilPtrVal] at hnil
    | vArray e xs => simp [isNilPtrVal] at hnil
  · intro v2 er hps hrec
    cases v with
    | vPtr p =>
      cases p with
      | vStruct sid sflds => simp [drainStep, hres, hfind, hexp, hval, hrec]
      | vInt n => simp [isPtrToStructVal] at hps
      | vNilPtr e => simp [isPtrToStructVal] at hps
      | vPtr q => simp [isPtrToStructVal] at hps
      | vSlice e xs => simp [isPtrToStructVal] at hps
      | vArray e xs => simp [isPtrToStructVal] at hps
    | vInt n => simp [isPtrToStructVal] at hps
    | vNilPtr e => simp [isPtrToStructVal] at hps
    | vStruct i f => simp [isPtrToStructVal] at hps
    | vSlice e xs => simp [isPtrToStructVal] at hps
    | vArray e xs => simp [isPtrToStructVal] at hps

/-- C6 witness: three instances of the amended theorem.  An `int` result for
the pointer field `B` records the kind-mismatch error and leaves the field
unset; a `*C` result (kind pointer) whose recursive hydration succeeds,
resolved for the slice field `DD`, records the kind-mismatch error after
the recursion; a typed-nil pointer result for the same slice field panics
instead of recording any error. -/
theorem kind_mismatch_records_error_witness :
    drainStep (Hydrate [] 0 NewHydrator) true [(fldB, .vNilPtr (.tStruct idB))] none
        ⟨"B", some (.vInt 5), none⟩ =
      .ok ([(fldB, .vNilPtr (.tStruct idB))], some (.kindMismatch "")) ∧
    drainStep (Hydrate [] 1 NewHydrator) true
        [(fldDDKM, .vSlice (.tPtr (.tStruct idB)) [])] none
        ⟨"DD", some (.vPtr cEmpty), none⟩ =
      .ok ([(fldDDKM, .vSlice (.tPtr (.tStruct idB)) [])], some (.kindMismatch "")) ∧
    drainStep (Hydrate [] 1 NewHydrator) true
        [(fldDDKM, .vSlice (.tPtr (.tStruct idB)) [])] none
        ⟨"DD", some (.vNilPtr (.tStruct idC)), none⟩ = .panicked :=
  ⟨(kind_mismatch_records_error (Hydrate [] 0 NewHydrator)
      [(fldB, .vNilPtr (.tStruct idB))] none ⟨"B", some (.vInt 5), none⟩
      fldB (.vNilPtr (.tStruct idB)) (.vInt 5) rfl rfl rfl rfl).1
      ⟨rfl, rfl, rfl, by decide⟩,
   (kind_mismatch_records_error (Hydrate [] 1 NewHydrator)
      [(fldDDKM, .vSlice (.tPtr (.tStruct idB)) [])] none
      ⟨"DD", some (.vPtr cEmpty), none⟩
      fldDDKM (.vSlice (.tPtr (.tStruct idB)) []) (.vPtr cEmpty) rfl rfl rfl rfl).2.1
      (.vPtr cEmpty) rfl rfl (by decide),
   (kind_mismatch_records_error (Hydrate [] 1 NewHydrator)
      [(fldDDKM, .vSlice (.tPtr (.tStruct idB)) [])] none
      ⟨"DD", some (.vNilPtr (.tStruct idC)), none⟩
      fldDDKM (.vSlice (.tPtr (.tStruct idB)) []) (.vNilPtr (.tStruct idC))
      rfl rfl rfl rfl).2.2.2.1 rfl⟩

/-!
### C7: errored resolutions discard their value
-/

def idHE : TypeId := ⟨hydPkg, "HydrationError"⟩
def fldHC : FieldDecl := ⟨"C", .tPtr (.tStruct idC), [("hydrate", "GetError")], false, true⟩

/-- `HydrationError.GetError` returns a present value together with an
error, as in the repository test. -/
def envHE : MethodEnv :=
  [⟨idHE, true, "GetError", fun _ => (some (.vPtr cEmpty), some (.userErr "Hydration error"))⟩]

def heRoot : GoVal := .vPtr (.vStruct idHE [(fldID, .vInt 1), (fldHC, .vNilPtr (.tStruct idC))])

/-- C7: a result whose method or finder returned an error records that error
and skips everything else in the iteration — the resolved value, even if
present, is discarded and the fields are untouched; once such an error is
recorded, draining the remaining results can never return it to none, so
`Hydrate` reports a non-none error.  The closed conjunct is Scenario B: the
record with `C *C` tagged `GetError`, whose method returns `(&C{ID: ...},
error)`; `Hydrate` returns the non-none error and `C` stays nil. -/
theorem resolver_error_discards_value (rec : GoVal → HOut (GoVal × Option GoErr))
    (p : Bool) (flds : List (FieldDecl × GoVal)) (e0 : Option GoErr)
    (res : HydrationResult) (e : GoErr) (rest : List HydrationResult)
    (hres : res.err = some e) :
    drainStep rec p flds e0 res = .ok (flds, some e) ∧
    (∀ (flds2 : List (FieldDecl × GoVal)) (e2 : Option GoErr),
      drainResults rec p flds (some e) rest = .ok (flds2, e2) → e2 ≠ none) ∧
    Hydrate envHE 1 NewHydrator heRoot = .ok (heRoot, some (.userErr "Hydration error")) := by
  refine ⟨by simp [drainStep, hres], ?_, rfl⟩
  intro flds2 e2 hd
  exact drainResults_err_ne_none rec p rest flds (some e) flds2 e2 (by simp) hd

/-- C7 witness: the theorem applied to a concrete erroring result whose
value is present — the value is discarded and the fields stay as they were,
and Scenario B holds end to end. -/
theorem resolver_error_discards_value_witness :
    drainStep (Hydrate [] 0 NewHydrator) true [(fldHC, .vNilPtr (.tStruct idC))] none
        ⟨"C", some (.vPtr cEmpty), some (.userErr "boom")⟩ =
      .ok ([(fldHC, .vNilPtr (.tStruct idC))], some (.userErr "boom")) ∧
      Hydrate envHE 1 NewHydrator heRoot = .ok (heRoot, some (.userErr "Hydration error")) := by
  have h := resolver_error_discards_value (Hydrate [] 0 NewHydrator) true
    [(fldHC, .vNilPtr (.tStruct idC))] none
    ⟨"C", some (.vPtr cEmpty), some (.userErr "boom")⟩ (.userErr "boom") [] rfl
  exact ⟨h.1, h.2.2⟩

/-!
### C8: no finder and no method means silent skip
-/

/-- When every annotated field of the list has no same-named method and no
finder registered for its element type (and is structurally valid), the
enumeration loop dispatches nothing and records no error. -/
theorem dispatchFields_all_skip (env : MethodEnv) (h : Hydrator) (o : GoVal)
    (allF : List (FieldDecl × GoVal)) :
    ∀ (l : List (FieldDecl × GoVal)),
    (∀ fv ∈ l, getTag fv.1.tags h.tag ≠ "" → getTag fv.1.tags h.tag ≠ "-" →
      (fv.1.anonymous = false ∧ isContainerKind (kindOf fv.1.type) = true ∧
       methodByName env (GoVal.typeOf o) (getTag fv.1.tags h.tag) = none ∧
       lookupFinder h.finders (typeKey (elemType fv.1.type)) = none)) →
    dispatchFields env h o allF true l = .ok ([], none) := by
  intro l
  induction l with
  | nil => intro _; rfl
  | cons fv l ih =>
    intro hall
    have hone : dispatchOne env h o allF true fv = .skip := by
      by_cases htag : getTag fv.1.tags h.tag = "" ∨ getTag fv.1.tags h.tag = "-"
      · simp [dispatchOne, htag]
      · push_neg at htag
        obtain ⟨ha, hk, hm, hf⟩ := hall fv (by simp) htag.1 htag.2
        simp [dispatchOne, htag.1, htag.2, ha, hk, hm, hf]
    have hrest : dispatchFields env h o allF true l = .ok ([], none) :=
      ih (fun x hx => hall x (by simp [hx]))
    simp [dispatchFields, hone, hrest]

/-- C8: for a pointer root none of whose annotated fields has a matching
method or a finder registered for its element type, `Hydrate` returns no
error and leaves the whole object — annotated fields included — exactly at
its original value: the absent registry entry means the field is skipped
with no result and no error. -/
theorem no_finder_no_method_untouched (env : MethodEnv) (h : Hydrator)
    (i : TypeId) (flds : List (FieldDecl × GoVal)) (n : Nat)
    (hall : ∀ fv ∈ flds, getTag fv.1.tags h.tag ≠ "" → getTag fv.1.tags h.tag ≠ "-" →
      (fv.1.anonymous = false ∧ isContainerKind (kindOf fv.1.type) = true ∧
       methodByName env (.tPtr (.tStruct i)) (getTag fv.1.tags h.tag) = none ∧
       lookupFinder h.finders (typeKey (elemType fv.1.type)) = none)) :
    Hydrate env (n + 1) h (.vPtr (.vStruct i flds)) =
      .ok (.vPtr (.vStruct i flds), none) := by
  have hd := dispatchFields_all_skip env h (.vPtr (.vStruct i flds)) flds flds hall
  simp [Hydrate, isNilPtrVal, indirect, isPtrVal, hd, drainResults]

/-- C8 witness: the struct `A{B *B hydrate:"BID"; BID int}` behind a
pointer, with an empty method set and an empty registry, is returned
untouched with no error. -/
theorem no_finder_no_method_untouched_witness :
    Hydrate [] 1 NewHydrator
        (.vPtr (.vStruct idA [(fldB, .vNilPtr (.tStruct idB)), (fldBID, .vInt 7)])) =
      .ok (.vPtr (.vStruct idA [(fldB, .vNilPtr (.tStruct idB)), (fldBID, .vInt 7)]), none) := by
  refine no_finder_no_method_untouched [] NewHydrator idA
    [(fldB, .vNilPtr (.tStruct idB)), (fldBID, .vInt 7)] 0 ?_
  intro fv hfv h1 h2
  simp only [List.mem_cons, List.not_mem_nil, or_false] at hfv
  rcases hfv with rfl | rfl
  · exact ⟨rfl, rfl, rfl, rfl⟩
  · exact absurd rfl h1

/-!
### C9: the type-safety check compares kinds only; an ill-typed Set panics
-/

/-- A finder registered for `B` that returns a `*int`: same container kind
as the field `B *B`, different concrete type. -/
def hPtrIntForB : Hydrator :=
  NewHydrator.Finder (.vStruct idB [(fldID, .vInt 0)])
    (fun _ => (some (.vPtr (.vInt 5)), none))

def rootP9 : GoVal := .vPtr (.vStruct idA [(fldB, .vNilPtr (.tStruct idB)), (fldBID, .vInt 7)])

/-- C9: the result check of main.go line 309 compares only reflect kinds;
when the resolved value's kind equals the field's kind but its concrete type
differs, no kind-mismatch (nor any) error is recorded — the iteration
proceeds to `field.Set`, which panics on the non-assignable value, so
`Hydrate`'s error-return discipline is not total over kind-matching but
type-mismatching resolver outputs. -/
theorem kind_match_type_mismatch_panics (rec : GoVal → HOut (GoVal × Option GoErr))
    (flds : List (FieldDecl × GoVal)) (e0 : Option GoErr)
    (res : HydrationResult) (fld : FieldDecl) (old v : GoVal)
    (hres : res.err = none)
    (hfind : findFieldDecl flds res.field = some (fld, old))
    (hexp : fld.exported = true)
    (hval : res.val = some v)
    (hnil : isNilPtrVal v = false)
    (hps : isPtrToStructVal v = false)
    (hseq : seqRecurses (GoVal.typeOf v) = false)
    (hkind : kindOf (GoVal.typeOf v) = kindOf fld.type)
    (hty : GoVal.typeOf v ≠ fld.type) :
    drainStep rec true flds e0 res = .panicked := by
  rw [drainStep_no_recursion rec flds e0 res fld old v hres hfind hexp hval hnil hps hseq]
  simp [applyResult, hkind, hty]

/-- C9 witness: a `*int` result for the `*B` field `B` panics at the drain
step, and the corresponding end-to-end `Hydrate` call on `A` with the
`*int`-returning finder for `B` panics rather than returning an error. -/
theorem kind_match_type_mismatch_panics_witness :
    drainStep (Hydrate [] 0 NewHydrator) true [(fldB, .vNilPtr (.tStruct idB))] none
        ⟨"B", some (.vPtr (.vInt 5)), none⟩ = .panicked ∧
      Hydrate [] 2 hPtrIntForB rootP9 = .panicked :=
  ⟨kind_match_type_mismatch_panics (Hydrate [] 0 NewHydrator)
    [(fldB, .vNilPtr (.tStruct idB))] none ⟨"B", some (.vPtr (.vInt 5)), none⟩
    fldB (.vNilPtr (.tStruct idB)) (.vPtr (.vInt 5))
    rfl rfl rfl rfl rfl rfl rfl (by decide) (by decide), rfl⟩

/-!
### C10: registry keys are separator-free concatenations and can collide
-/

def collideT1 : TypeId := ⟨"a/b", "cd"⟩
def collideT2 : TypeId := ⟨"a/bc", "d"⟩
def finderOne : FinderImpl := fun _ => (some (.vInt 1), none)
def finderTwo : FinderImpl := fun _ => (some (.vInt 2), none)

/-- C10: the registry key is `PkgPath()+Name()` with no separator, so the
distinct types `a/b.cd` and `a/bc.d` share one key: after registering a
finder for the first type, registering one for the second overwrites what a
lookup under the first type's key returns, violating one-entry-per-type
identity for colliding pairs. -/
theorem finder_key_collision :
    collideT1 ≠ collideT2 ∧
    typeKey (.tStruct collideT1) = typeKey (.tStruct collideT2) ∧
    lookupFinder ((NewHydrator.Finder (.vStruct collideT1 []) finderOne).finders)
        (typeKey (.tStruct collideT1)) = some finderOne ∧
    lookupFinder (((NewHydrator.Finder (.vStruct collideT1 []) finderOne).Finder
        (.vStruct collideT2 []) finderTwo).finders)
        (typeKey (.tStruct collideT1)) = some finderTwo :=
  ⟨by decide, rfl, rfl, rfl⟩
